import Mathlib

/-!
Verification of the WebSocket chat relay server (`src/app.js`).

The server keeps two in-memory maps (`activeUsers : userId → socketId`,
`userSockets : socketId → {userId, chatId}`), socket.io room membership,
and a Firestore-backed chat/message store.  We embed the connection
handlers (`join`, `sendMessage`, `typing`, `disconnect`) and the HTTP
chat-creation endpoint as pure state-transition functions over that
state, with explicit booleans marking the points at which a Firestore
call may throw.
-/

namespace ChatServer

/-- A registered session, as stored in `userSockets`: the value set by
`userSockets.set(socket.id, { userId, chatId })`. -/
structure Session where
  userId : String
  chatId : String
  deriving DecidableEq, Repr

/-- A chat document in the `chats` collection (`participants`,
`createdAt`, `lastMessage`, `lastMessageAt`). -/
structure Chat where
  participants : List String
  createdAt : Option Nat
  lastMessage : Option String
  lastMessageAt : Option Nat
  deriving DecidableEq, Repr

/-- A message document in the `messages` collection, together with the
document id Firestore assigns on `add` (modelled as a counter). -/
structure MessageRec where
  id : Nat
  chatId : String
  senderId : String
  message : String
  timestamp : Nat
  deriving DecidableEq, Repr

/-- JavaScript `Map.get`: the value at a key, or `none`. -/
def mget {α : Type} (k : String) : List (String × α) → Option α
  | [] => none
  | p :: m => if p.1 = k then some p.2 else mget k m

/-- Remove every entry at a key (our states keep keys unique, so this is
JavaScript `Map.delete`). -/
def mdel {α : Type} (k : String) : List (String × α) → List (String × α)
  | [] => []
  | p :: m => if p.1 = k then mdel k m else p :: mdel k m

/-- JavaScript `Map.set`: bind a key to a value, replacing any prior
binding. -/
def mset {α : Type} (k : String) (v : α) (m : List (String × α)) :
    List (String × α) :=
  (k, v) :: mdel k m

/-- The whole server state: the two registry maps, socket.io room
membership (pairs `(socketId, chatId)`), the Firestore `chats` and
`messages` collections, and the counter standing in for Firestore's
document-id assignment on `messages.add`. -/
structure ServerState where
  activeUsers : List (String × String)
  userSockets : List (String × Session)
  rooms : List (String × String)
  chats : List (String × Chat)
  messages : List MessageRec
  nextId : Nat
  crashed : Bool
  deriving DecidableEq, Repr

/-- An event payload emitted to a socket. -/
inductive Payload where
  | userOnline (userId : String)
  | userOffline (userId : String)
  | joined (chatId userId : String)
  | newMessage (m : MessageRec)
  | userTyping (userId : String) (isTyping : Bool)
  | error (msg : String)
  deriving DecidableEq, Repr

/-- One delivered emission: the receiving socket, the room it was
broadcast to (`none` for a direct `socket.emit`), and the payload. -/
structure Emit where
  target : String
  room : Option String
  payload : Payload
  deriving DecidableEq, Repr

/-- Model of `socket.join(chatId)`: add the socket to the room (no-op when
already a member). -/
def addRoom (s c : String) (rooms : List (String × String)) :
    List (String × String) :=
  if (s, c) ∈ rooms then rooms else (s, c) :: rooms

/-- Transport-level cleanup on disconnect: the socket leaves every
room. -/
def removeSocket (s : String) (rooms : List (String × String)) :
    List (String × String) :=
  rooms.filter (fun p => p.1 ≠ s)

/-- The sockets currently in a room. -/
def roomMembers (c : String) (rooms : List (String × String)) :
    List String :=
  (rooms.filter (fun p => p.2 = c)).map (fun p => p.1)

/-- Model of `socket.to(c).emit` / `io.to(c).emit`: deliver a payload to every
socket in room `c`, skipping `excl` when given. -/
def emitToRoom (rooms : List (String × String)) (c : String)
    (excl : Option String) (p : Payload) : List Emit :=
  ((roomMembers c rooms).filter (fun t => excl ≠ some t)).map
    (fun t => { target := t, room := some c, payload := p })

/-- The timestamp stored for a message: `timestamp ||
admin.firestore.FieldValue.serverTimestamp()` — the client value unless
it is absent or falsy (`0`), in which case the server time. -/
def tsOf (timestamp : Option Nat) (now : Nat) : Nat :=
  match timestamp with
  | none => now
  | some t => if t = 0 then now else t

/-- The characters JavaScript `String.prototype.trim` strips:
WhiteSpace (TAB, VT, FF, SP, NBSP, ZWNBSP and every Unicode
Space_Separator code point) and LineTerminator (LF, CR, LS, PS). -/
def jsWhitespace (c : Char) : Bool :=
  c.toNat = 0x9 ∨ c.toNat = 0xA ∨ c.toNat = 0xB ∨ c.toNat = 0xC ∨
    c.toNat = 0xD ∨ c.toNat = 0x20 ∨ c.toNat = 0xA0 ∨
    c.toNat = 0x1680 ∨ (0x2000 ≤ c.toNat ∧ c.toNat ≤ 0x200A) ∨
    c.toNat = 0x2028 ∨ c.toNat = 0x2029 ∨ c.toNat = 0x202F ∨
    c.toNat = 0x205F ∨ c.toNat = 0x3000 ∨ c.toNat = 0xFEFF

/-- JavaScript `message.trim()`: strip leading and trailing whitespace. -/
def jsTrim (s : String) : String :=
  String.mk (((s.data.dropWhile jsWhitespace).reverse.dropWhile
    jsWhitespace).reverse)

/-- The `join` handler (`socket.on('join', ...)`, src/app.js lines
97-141).  `userId`/`chatId` are `none` when the field is missing from
the request; `getOk = false` means the Firestore `chatRef.get()` call
throws, landing in the handler's catch block. -/
def handleJoin (st : ServerState) (s : String)
    (userId chatId : Option String) (getOk : Bool) :
    ServerState × List Emit :=
  match userId, chatId with
  | some u, some c =>
    if u = "" ∨ c = "" then
      (st, [{ target := s, room := none,
              payload := Payload.error "UserId and chatId are required" }])
    else if !getOk then
      (st, [{ target := s, room := none,
              payload := Payload.error "Failed to join chat" }])
    else
      match mget c st.chats with
      | none =>
        (st, [{ target := s, room := none,
                payload := Payload.error "Chat not found" }])
      | some chat =>
        if u ∈ chat.participants then
          let rooms' := addRoom s c st.rooms
          ({ st with rooms := rooms',
                     activeUsers := mset u s st.activeUsers,
                     userSockets := mset s ({ userId := u, chatId := c }) st.userSockets },
            emitToRoom rooms' c (some s) (Payload.userOnline u) ++
              [{ target := s, room := none, payload := Payload.joined c u }])
        else
          (st, [{ target := s, room := none,
                  payload := Payload.error "Not authorized for this chat" }])
  | _, _ =>
    (st, [{ target := s, room := none,
            payload := Payload.error "UserId and chatId are required" }])

/-- The `sendMessage` handler (src/app.js lines 144-186).  `addOk =
false` models the `messages.add` persistence call throwing; `updateOk =
false` models the chat-summary `update` call throwing; `now` is the
server timestamp. -/
def handleSendMessage (st : ServerState) (s : String)
    (message : Option String) (timestamp : Option Nat) (now : Nat)
    (addOk updateOk : Bool) : ServerState × List Emit :=
  match mget s st.userSockets with
  | none =>
    (st, [{ target := s, room := none,
            payload := Payload.error "Not properly connected to chat" }])
  | some sess =>
    if sess.userId = "" ∨ sess.chatId = "" then
      (st, [{ target := s, room := none,
              payload := Payload.error "Not properly connected to chat" }])
    else
      match message with
      | none =>
        (st, [{ target := s, room := none,
                payload := Payload.error "Message cannot be empty" }])
      | some m =>
        if jsTrim m = "" then
          (st, [{ target := s, room := none,
                  payload := Payload.error "Message cannot be empty" }])
        else if !addOk then
          (st, [{ target := s, room := none,
                  payload := Payload.error "Failed to send message" }])
        else
          let saved : MessageRec :=
            { id := st.nextId, chatId := sess.chatId,
              senderId := sess.userId, message := jsTrim m,
              timestamp := tsOf timestamp now }
          let st1 := { st with messages := st.messages ++ [saved],
                               nextId := st.nextId + 1 }
          if !updateOk then
            (st1, [{ target := s, room := none,
                     payload := Payload.error "Failed to send message" }])
          else
            match mget sess.chatId st1.chats with
            | none =>
              (st1, [{ target := s, room := none,
                       payload := Payload.error "Failed to send message" }])
            | some ch =>
              let ch' := { ch with lastMessage := some (jsTrim m),
                                   lastMessageAt := some now }
              let st2 := { st1 with chats := mset sess.chatId ch' st1.chats }
              (st2, (roomMembers sess.chatId st2.rooms).map
                  (fun t => { target := t, room := some sess.chatId,
                              payload := Payload.newMessage saved }))

/-- The `typing` handler (src/app.js lines 189-194): silently drops the
event unless the socket has a registered session.  It is the only
handler with no try/catch: with a session, building the broadcast
payload evaluates `data.isTyping`, which throws an uncaught TypeError
when `data` is nullish (`none` here) — the process crashes before
anything is emitted. -/
def handleTyping (st : ServerState) (s : String) (data : Option Bool) :
    ServerState × List Emit :=
  match mget s st.userSockets with
  | none => (st, [])
  | some sess =>
    if sess.userId = "" ∨ sess.chatId = "" then (st, [])
    else
      match data with
      | none => ({ st with crashed := true }, [])
      | some isTyping =>
        (st, emitToRoom st.rooms sess.chatId (some s)
          (Payload.userTyping sess.userId isTyping))

/-- The `disconnect` handler (src/app.js lines 197-213).  The transport
removes the socket from its rooms before the handler runs, so the
`userOffline` broadcast reaches the remaining room members only. -/
def handleDisconnect (st : ServerState) (s : String) :
    ServerState × List Emit :=
  let rooms' := removeSocket s st.rooms
  match mget s st.userSockets with
  | none => ({ st with rooms := rooms' }, [])
  | some sess =>
    ({ st with rooms := rooms',
               activeUsers := mdel sess.userId st.activeUsers,
               userSockets := mdel s st.userSockets },
      emitToRoom rooms' sess.chatId (some s)
        (Payload.userOffline sess.userId))

/-- The HTTP response of `POST /api/chats`. -/
inductive HttpResp where
  | ok (chatId : String) (participants : List String)
  | badRequest (msg : String)
  deriving DecidableEq, Repr

/-- JavaScript string comparison `a < b` (by code units), on character
data. -/
def strLtB : List Char → List Char → Bool
  | [], [] => false
  | [], _ :: _ => true
  | _ :: _, [] => false
  | c :: cs, d :: ds =>
    if c.toNat < d.toNat then true
    else if d.toNat < c.toNat then false
    else strLtB cs ds

/-- JavaScript `a <= b` on strings: not `b < a`. -/
def jsLeB (a b : String) : Bool := !(strLtB b.data a.data)

/-- JavaScript `Array.prototype.sort()` with the default comparator
on strings, written as insertion sort (`insortS` inserts into a sorted
list). -/
def insortS (x : String) : List String → List String
  | [] => [x]
  | y :: ys => if jsLeB x y then x :: y :: ys else y :: insortS x ys

def sortS : List String → List String
  | [] => []
  | x :: xs => insortS x (sortS xs)

/-- The `POST /api/chats` handler (src/app.js lines 62-90): derive the
chatId from the sorted participants joined by `_`, and create the chat
document only when absent. -/
def createChatIfAbsent (st : ServerState)
    (participants : Option (List String)) (now : Nat) :
    ServerState × HttpResp :=
  match participants with
  | none => (st, HttpResp.badRequest "Exactly 2 participants required")
  | some ps =>
    if ps.length ≠ 2 then
      (st, HttpResp.badRequest "Exactly 2 participants required")
    else
      let sorted := sortS ps
      let chatId := String.intercalate "_" sorted
      match mget chatId st.chats with
      | some _ => (st, HttpResp.ok chatId sorted)
      | none =>
        let chat : Chat := { participants := sorted, createdAt := some now,
                             lastMessage := none, lastMessageAt := none }
        ({ st with chats := mset chatId chat st.chats },
          HttpResp.ok chatId sorted)

/-- One client-visible event arriving at the server. -/
inductive Ev where
  | join (s : String) (userId chatId : Option String) (getOk : Bool)
  | send (s : String) (message : Option String) (timestamp : Option Nat)
      (now : Nat) (addOk updateOk : Bool)
  | typing (s : String) (data : Option Bool)
  | disconnect (s : String)
  | createChat (participants : Option (List String)) (now : Nat)
  deriving DecidableEq, Repr

/-- Dispatch one event to its handler. -/
def step (st : ServerState) : Ev → ServerState × List Emit
  | Ev.join s u c getOk => handleJoin st s u c getOk
  | Ev.send s m ts now aok uok => handleSendMessage st s m ts now aok uok
  | Ev.typing s d => handleTyping st s d
  | Ev.disconnect s => handleDisconnect st s
  | Ev.createChat ps now => ((createChatIfAbsent st ps now).1, [])

/-- Run a sequence of events, collecting all emissions.  A crashed
process handles nothing further. -/
def run (st : ServerState) : List Ev → ServerState × List Emit
  | [] => (st, [])
  | ev :: evs =>
    if st.crashed then (st, [])
    else
      let r := step st ev
      let r' := run r.1 evs
      (r'.1, r.2 ++ r'.2)

/-- The state at process start: empty maps, empty store. -/
def init : ServerState :=
  { activeUsers := [], userSockets := [], rooms := [], chats := [],
    messages := [], nextId := 0, crashed := false }

/-- A state the server can actually be in. -/
def Reachable (st : ServerState) : Prop :=
  ∃ evs, (run init evs).1 = st

/-- The error taxonomy of spec section 7. -/
inductive ErrKind where
  | validationErr
  | notFoundErr
  | authorizationErr
  | notConnectedErr
  | storeErr
  deriving DecidableEq, Repr

/-- The kind of each error string the server emits: every emitted
message determines one kind of the spec's taxonomy. -/
def kindOfError (m : String) : Option ErrKind :=
  if m = "UserId and chatId are required" then some ErrKind.validationErr
  else if m = "Message cannot be empty" then some ErrKind.validationErr
  else if m = "Chat not found" then some ErrKind.notFoundErr
  else if m = "Not authorized for this chat" then
    some ErrKind.authorizationErr
  else if m = "Not properly connected to chat" then
    some ErrKind.notConnectedErr
  else if m = "Failed to join chat" then some ErrKind.storeErr
  else if m = "Failed to send message" then some ErrKind.storeErr
  else none

/-- The socket an event originates from (`none` for the HTTP
endpoint). -/
def evSocket : Ev → Option String
  | Ev.join s _ _ _ => some s
  | Ev.send s _ _ _ _ _ => some s
  | Ev.typing s _ => some s
  | Ev.disconnect s => some s
  | Ev.createChat _ _ => none

/-- A two-user scenario: chat `a_b` created, `a` joined from socket
`SA`, `b` joined from socket `SB`. -/
def demoTrace : List Ev :=
  [Ev.createChat (some ["a", "b"]) 0,
   Ev.join "SA" (some "a") (some "a_b") true,
   Ev.join "SB" (some "b") (some "a_b") true]

def demoState : ServerState := (run init demoTrace).1

/-- The re-join scenario: user `a` joins from `S1`, then joins again
from `S2`. -/
def rejoinTrace : List Ev :=
  [Ev.createChat (some ["a", "b"]) 0,
   Ev.join "S1" (some "a") (some "a_b") true,
   Ev.join "S2" (some "a") (some "a_b") true]

/-- The spec's Session Registry lockstep invariant: the two maps encode
the same userId-to-connection correspondence — `activeUsers` maps `u`
to `s` exactly when `userSockets` holds a session for `s` whose userId
is `u`. -/
def registryConsistent (st : ServerState) : Prop :=
  ∀ u s, mget u st.activeUsers = some s ↔
    ∃ sess, mget s st.userSockets = some sess ∧ sess.userId = u

/-- Side condition under which the lockstep invariant is preserved: the
event is not a re-join — a `join` may only bind a userId with no
current connection and a socket with no current session. -/
def noRejoin (ev : Ev) (st : ServerState) : Prop :=
  match ev with
  | Ev.join s u _ _ =>
    (∀ uid, u = some uid → mget uid st.activeUsers = none) ∧
      mget s st.userSockets = none
  | _ => True

/-- The cross-room trace: socket `X` joins chat `a_b` as `a`, re-joins
chat `a_c`, and socket `Y` joins `a_b` as `b`. -/
def crossRoomTrace : List Ev :=
  [Ev.createChat (some ["a", "b"]) 0,
   Ev.createChat (some ["a", "c"]) 0,
   Ev.join "X" (some "a") (some "a_b") true,
   Ev.join "X" (some "a") (some "a_c") true,
   Ev.join "Y" (some "b") (some "a_b") true]

theorem mget_mdel_self {α : Type} (k : String) (m : List (String × α)) :
    mget k (mdel k m) = none := by
  induction m with
  | nil => rfl
  | cons p t ih =>
    by_cases hp : p.1 = k
    · simpa [mdel, hp] using ih
    · simpa [mdel, mget, hp] using ih

theorem mget_mdel_ne {α : Type} {k k' : String} (m : List (String × α))
    (h : k' ≠ k) : mget k' (mdel k m) = mget k' m := by
  induction m with
  | nil => rfl
  | cons p t ih =>
    by_cases hp : p.1 = k
    · have hkk' : ¬(k = k') := fun he => h he.symm
      simpa [mdel, mget, hp, hkk'] using ih
    · by_cases hp' : p.1 = k' <;> simp [mdel, mget, hp, hp', h, ih]

theorem mget_mset_self {α : Type} (k : String) (v : α)
    (m : List (String × α)) : mget k (mset k v m) = some v := by
  simp [mget, mset]

theorem mget_mset_ne {α : Type} {k k' : String} (v : α)
    (m : List (String × α)) (h : k' ≠ k) :
    mget k' (mset k v m) = mget k' m := by
  have hkk' : k ≠ k' := fun he => h he.symm
  simp [mset, mget, hkk', mget_mdel_ne m h]

theorem uint32_eq_of_toNat_eq {a b : UInt32} (h : a.toNat = b.toNat) :
    a = b := by
  cases a; cases b
  simp only [UInt32.toNat] at h
  congr 1
  exact BitVec.eq_of_toNat_eq h

theorem char_eq_of_toNat_eq {a b : Char} (h : a.toNat = b.toNat) :
    a = b :=
  Char.eq_of_val_eq (uint32_eq_of_toNat_eq h)

theorem string_eq_of_data_eq {a b : String} (h : a.data = b.data) :
    a = b := by
  cases a; cases b
  exact congrArg String.mk h

theorem strLtB_asymm :
    ∀ xs ys, strLtB xs ys = true → strLtB ys xs = false := by
  intro xs
  induction xs with
  | nil =>
    intro ys h
    cases ys with
    | nil => simp [strLtB] at h
    | cons d ds => simp [strLtB]
  | cons c cs ih =>
    intro ys h
    cases ys with
    | nil => simp [strLtB] at h
    | cons d ds =>
      by_cases hcd : c.toNat < d.toNat
      · have hdc : ¬ d.toNat < c.toNat := Nat.lt_asymm hcd
        simp [strLtB, hcd, hdc]
      · by_cases hdc : d.toNat < c.toNat
        · simp [strLtB, hcd, hdc] at h
        · simp [strLtB, hcd, hdc] at h ⊢
          exact ih ds h

theorem strLtB_eq_of_not_lt :
    ∀ xs ys, strLtB xs ys = false → strLtB ys xs = false → xs = ys := by
  intro xs
  induction xs with
  | nil =>
    intro ys h _
    cases ys with
    | nil => rfl
    | cons d ds => simp [strLtB] at h
  | cons c cs ih =>
    intro ys h h'
    cases ys with
    | nil => simp [strLtB] at h'
    | cons d ds =>
      by_cases hcd : c.toNat < d.toNat
      · simp [strLtB, hcd] at h
      · by_cases hdc : d.toNat < c.toNat
        · simp [strLtB, hdc] at h'
        · have hce : c = d :=
            char_eq_of_toNat_eq (Nat.le_antisymm
              (Nat.le_of_not_lt hdc) (Nat.le_of_not_lt hcd))
          simp [strLtB, hcd, hdc] at h h'
          rw [hce, ih ds h h']

theorem jsLeB_antisymm {a b : String} (h : jsLeB a b = true)
    (h' : jsLeB b a = true) : a = b := by
  simp [jsLeB] at h h'
  exact string_eq_of_data_eq (strLtB_eq_of_not_lt _ _ h' h)

theorem jsLeB_total (a b : String) :
    jsLeB a b = true ∨ jsLeB b a = true := by
  by_cases hab : strLtB b.data a.data = true
  · right
    simp [jsLeB, strLtB_asymm _ _ hab]
  · left
    simp [jsLeB]
    exact Bool.eq_false_iff.mpr hab

/-- Sorting a two-element list is order independent. -/
theorem sortS_pair_comm (a b : String) : sortS [a, b] = sortS [b, a] := by
  by_cases hab : jsLeB a b = true <;> by_cases hba : jsLeB b a = true
  · rw [jsLeB_antisymm hab hba]
  · simp [sortS, insortS, hab, hba]
  · simp [sortS, insortS, hab, hba]
  · rcases jsLeB_total a b with h | h
    · exact absurd h hab
    · exact absurd h hba

/-- Claim C6: `createChatIfAbsent([a,b])` and `createChatIfAbsent([b,a])`
derive the same chatId from the sorted pair joined by `_`, and the
second request creates nothing: the store is left exactly as the first
request left it. -/
theorem createChat_order_independent_idempotent (a b : String)
    (st : ServerState) (n1 n2 : Nat) :
    (createChatIfAbsent (createChatIfAbsent st (some [a, b]) n1).1
        (some [b, a]) n2).1
      = (createChatIfAbsent st (some [a, b]) n1).1 ∧
    (createChatIfAbsent (createChatIfAbsent st (some [a, b]) n1).1
        (some [b, a]) n2).2
      = (createChatIfAbsent st (some [a, b]) n1).2 ∧
    (createChatIfAbsent st (some [a, b]) n1).2
      = HttpResp.ok (String.intercalate "_" (sortS [a, b])) (sortS [a, b]) := by
  have hcomm := sortS_pair_comm a b
  simp only [createChatIfAbsent, List.length, hcomm]
  norm_num
  cases hm : mget (String.intercalate "_" (sortS [b, a])) st.chats with
  | some ch => simp [hm]
  | none => simp [hm, mget_mset_self]

/-- Claim C5: a `join` missing either field fails with the validation error;
a `join` to an unknown chat fails with the not-found error; a `join` by
a non-participant fails with the authorization error.  In each case the
error goes to the joining socket alone and the whole state — registry
included — is unchanged. -/
theorem join_failure_cases (st : ServerState) (s : String)
    (u c : Option String) :
    ((u = none ∨ u = some "" ∨ c = none ∨ c = some "") →
      handleJoin st s u c true =
        (st, [{ target := s, room := none,
                payload := Payload.error "UserId and chatId are required" }]) ∧
      kindOfError "UserId and chatId are required" =
        some ErrKind.validationErr) ∧
    (∀ uid cid, u = some uid → c = some cid → uid ≠ "" → cid ≠ "" →
      mget cid st.chats = none →
      handleJoin st s u c true =
        (st, [{ target := s, room := none,
                payload := Payload.error "Chat not found" }]) ∧
      kindOfError "Chat not found" = some ErrKind.notFoundErr) ∧
    (∀ uid cid ch, u = some uid → c = some cid → uid ≠ "" → cid ≠ "" →
      mget cid st.chats = some ch → uid ∉ ch.participants →
      handleJoin st s u c true =
        (st, [{ target := s, room := none,
                payload := Payload.error "Not authorized for this chat" }]) ∧
      kindOfError "Not authorized for this chat" =
        some ErrKind.authorizationErr) := by
  refine ⟨?_, ?_, ?_⟩
  · rintro (rfl | rfl | rfl | rfl)
    · cases c <;> simp [handleJoin, kindOfError]
    · cases c <;> simp [handleJoin, kindOfError]
    · cases u <;> simp [handleJoin, kindOfError]
    · cases u <;> simp [handleJoin, kindOfError]
  · rintro uid cid rfl rfl huid hcid hm
    simp [handleJoin, huid, hcid, hm, kindOfError]
  · rintro uid cid ch rfl rfl huid hcid hm hp
    simp [handleJoin, huid, hcid, hm, hp, kindOfError]

theorem join_failure_cases_witness :
    handleJoin demoState "SC" (some "c") (some "a_b") true =
      (demoState,
        [Emit.mk "SC" none (Payload.error "Not authorized for this chat")]) :=
  (((join_failure_cases demoState "SC" (some "c") (some "a_b")).2.2)
    "c" "a_b" { participants := ["a", "b"], createdAt := some 0,
                lastMessage := none, lastMessageAt := none }
    rfl rfl (by decide) (by decide) (by decide) (by decide)).1

/-- Claim C7: a `sendMessage` from a joined socket whose message is missing,
empty, or whitespace-only is rejected with the validation error sent to
the sender alone; the state — messages, chat summaries, registry — is
unchanged and nothing is broadcast. -/
theorem sendMessage_empty_rejected (st : ServerState) (s u c : String)
    (m : Option String) (ts : Option Nat) (now : Nat) (aok uok : Bool)
    (hs : mget s st.userSockets = some { userId := u, chatId := c })
    (hu : u ≠ "") (hc : c ≠ "")
    (hm : m = none ∨ ∃ str, m = some str ∧ jsTrim str = "") :
    handleSendMessage st s m ts now aok uok =
      (st, [{ target := s, room := none,
              payload := Payload.error "Message cannot be empty" }]) ∧
    kindOfError "Message cannot be empty" = some ErrKind.validationErr := by
  rcases hm with rfl | ⟨str, rfl, hstr⟩
  · simp [handleSendMessage, hs, hu, hc, kindOfError]
  · simp [handleSendMessage, hs, hu, hc, hstr, kindOfError]

theorem sendMessage_empty_rejected_witness :
    handleSendMessage demoState "SA" (some " \u2003\u3000") none 7 true true =
      (demoState,
        [Emit.mk "SA" none (Payload.error "Message cannot be empty")]) :=
  (sendMessage_empty_rejected demoState "SA" "a" "a_b"
    (some " \u2003\u3000") none 7 true true (by decide) (by decide)
    (by decide) (Or.inr ⟨" \u2003\u3000", rfl, by decide⟩)).1

/-- Claim C4: a validated `join` registers the session in both registry maps,
emits `userOnline` to the room excluding the joining socket and then
`joined` to the joining socket (in that order in the emission list),
and a subsequent registry lookup of the socket returns the session. -/
theorem join_success (st : ServerState) (s u c : String) (ch : Chat)
    (hu : u ≠ "") (hc : c ≠ "")
    (hch : mget c st.chats = some ch) (hp : u ∈ ch.participants) :
    handleJoin st s (some u) (some c) true =
      ({ st with rooms := addRoom s c st.rooms,
                 activeUsers := mset u s st.activeUsers,
                 userSockets := mset s ({ userId := u, chatId := c })
                   st.userSockets },
        emitToRoom (addRoom s c st.rooms) c (some s) (Payload.userOnline u) ++
          [Emit.mk s none (Payload.joined c u)]) ∧
    mget s (handleJoin st s (some u) (some c) true).1.userSockets =
      some { userId := u, chatId := c } ∧
    (∀ e ∈ emitToRoom (addRoom s c st.rooms) c (some s)
        (Payload.userOnline u), e.target ≠ s) := by
  have hmain : handleJoin st s (some u) (some c) true =
      ({ st with rooms := addRoom s c st.rooms,
                 activeUsers := mset u s st.activeUsers,
                 userSockets := mset s ({ userId := u, chatId := c })
                   st.userSockets },
        emitToRoom (addRoom s c st.rooms) c (some s) (Payload.userOnline u) ++
          [Emit.mk s none (Payload.joined c u)]) := by
    simp [handleJoin, hu, hc, hch, hp]
  refine ⟨hmain, ?_, ?_⟩
  · rw [hmain]
    exact mget_mset_self s _ st.userSockets
  · intro e he
    simp only [emitToRoom, List.mem_map, List.mem_filter] at he
    obtain ⟨t, ⟨_, ht⟩, rfl⟩ := he
    simp only [decide_eq_true_eq] at ht
    intro hts
    have hts' : t = s := hts
    exact ht (by rw [hts'])

theorem join_success_witness :
    mget "SA" (handleJoin (run init [Ev.createChat (some ["a", "b"]) 0]).1
        "SA" (some "a") (some "a_b") true).1.userSockets =
      some { userId := "a", chatId := "a_b" } :=
  (join_success (run init [Ev.createChat (some ["a", "b"]) 0]).1 "SA" "a"
    "a_b" { participants := ["a", "b"], createdAt := some 0,
            lastMessage := none, lastMessageAt := none }
    (by decide) (by decide) (by decide) (by decide)).2.1

/-- Claim C8: disconnecting a socket with a registered session removes the
socket's `userSockets` entry and the session userId's `activeUsers`
entry, broadcasts `userOffline` to the remaining members of the former
chat's room, and a subsequent lookup of the socket is absent.
Disconnecting a socket with no session emits nothing and (beyond the
transport clearing the socket's rooms, a no-op for a socket in no
rooms) changes no state. -/
theorem disconnect_behavior (st : ServerState) (s : String) :
    (∀ u c, mget s st.userSockets = some { userId := u, chatId := c } →
      mget s (handleDisconnect st s).1.userSockets = none ∧
      mget u (handleDisconnect st s).1.activeUsers = none ∧
      (handleDisconnect st s).2 =
        emitToRoom (removeSocket s st.rooms) c (some s)
          (Payload.userOffline u)) ∧
    (mget s st.userSockets = none →
      (handleDisconnect st s).2 = [] ∧
      (handleDisconnect st s).1 =
        { st with rooms := removeSocket s st.rooms } ∧
      (removeSocket s st.rooms = st.rooms →
        (handleDisconnect st s).1 = st)) := by
  constructor
  · intro u c h
    refine ⟨?_, ?_, ?_⟩ <;>
      simp [handleDisconnect, h, mget_mdel_self]
  · intro h
    refine ⟨?_, ?_, ?_⟩ <;> simp [handleDisconnect, h]
    intro hr
    rw [hr]

theorem disconnect_behavior_witness :
    mget "SA" (handleDisconnect demoState "SA").1.userSockets = none ∧
    mget "a" (handleDisconnect demoState "SA").1.activeUsers = none :=
  ⟨((disconnect_behavior demoState "SA").1 "a" "a_b" (by decide)).1,
   ((disconnect_behavior demoState "SA").1 "a" "a_b" (by decide)).2.1⟩

/-- Claim C10: when socket `A` holds a session for user `u` while
`activeUsers` maps `u` to a different socket `B` (the state left by a
re-join from a new connection), disconnecting `A` unconditionally
deletes `u` from `activeUsers` — evicting the entry that points to `B`
— broadcasts `userOffline{u}` to `A`'s former chat room, and leaves
`B`'s `userSockets` entry in place. -/
theorem disconnect_evicts_other_connection (st : ServerState)
    (A B u c : String)
    (hA : mget A st.userSockets = some { userId := u, chatId := c })
    (_hB : mget u st.activeUsers = some B) (hAB : A ≠ B) :
    mget u (handleDisconnect st A).1.activeUsers = none ∧
    mget B (handleDisconnect st A).1.userSockets = mget B st.userSockets ∧
    (handleDisconnect st A).2 =
      emitToRoom (removeSocket A st.rooms) c (some A)
        (Payload.userOffline u) := by
  have hBA : B ≠ A := fun h => hAB h.symm
  refine ⟨?_, ?_, ?_⟩ <;>
    simp [handleDisconnect, hA, mget_mdel_self, mget_mdel_ne _ hBA]

theorem disconnect_evicts_witness :
    mget "a" (handleDisconnect (run init rejoinTrace).1 "S1").1.activeUsers
      = none ∧
    mget "S2" (handleDisconnect (run init rejoinTrace).1 "S1").1.userSockets
      = mget "S2" (run init rejoinTrace).1.userSockets :=
  ⟨(disconnect_evicts_other_connection (run init rejoinTrace).1 "S1" "S2"
      "a" "a_b" (by decide) (by decide) (by decide)).1,
   (disconnect_evicts_other_connection (run init rejoinTrace).1 "S1" "S2"
      "a" "a_b" (by decide) (by decide) (by decide)).2.1⟩

theorem mem_roomMembers {s c : String} {rooms : List (String × String)}
    (h : (s, c) ∈ rooms) : s ∈ roomMembers c rooms := by
  simp only [roomMembers, List.mem_map, List.mem_filter]
  exact ⟨(s, c), ⟨h, by simp⟩, rfl⟩

/-- Claim C3: a `sendMessage` of a non-empty (after trimming) message from a
joined socket appends the message to the store with the store-assigned
id, updates the chat summary (`lastMessage`, `lastMessageAt`), and
broadcasts `newMessage` with the saved record to every socket in the
room — the sender included.  When persistence fails, the state is
untouched, nothing is broadcast, and the error goes to the sender
alone. -/
theorem sendMessage_success_and_failure (st : ServerState)
    (s u c m : String) (ts : Option Nat) (now : Nat) (uok : Bool)
    (ch : Chat)
    (hs : mget s st.userSockets = some { userId := u, chatId := c })
    (hu : u ≠ "") (hc : c ≠ "") (hm : jsTrim m ≠ "")
    (hch : mget c st.chats = some ch) (hroom : (s, c) ∈ st.rooms) :
    (handleSendMessage st s (some m) ts now true true).1.messages =
      st.messages ++
        [{ id := st.nextId, chatId := c, senderId := u,
           message := jsTrim m, timestamp := tsOf ts now }] ∧
    mget c (handleSendMessage st s (some m) ts now true true).1.chats =
      some { ch with lastMessage := some (jsTrim m),
                     lastMessageAt := some now } ∧
    (handleSendMessage st s (some m) ts now true true).2 =
      (roomMembers c st.rooms).map
        (fun t => Emit.mk t (some c) (Payload.newMessage
          { id := st.nextId, chatId := c, senderId := u,
            message := jsTrim m, timestamp := tsOf ts now })) ∧
    (Emit.mk s (some c) (Payload.newMessage
        { id := st.nextId, chatId := c, senderId := u,
          message := jsTrim m, timestamp := tsOf ts now })) ∈
      (handleSendMessage st s (some m) ts now true true).2 ∧
    handleSendMessage st s (some m) ts now false uok =
      (st, [Emit.mk s none (Payload.error "Failed to send message")]) := by
  refine ⟨?_, ?_, ?_, ?_, ?_⟩
  · simp [handleSendMessage, hs, hu, hc, hm, hch]
  · simp [handleSendMessage, hs, hu, hc, hm, hch, mget_mset_self]
  · simp [handleSendMessage, hs, hu, hc, hm, hch]
  · simp [handleSendMessage, hs, hu, hc, hm, hch, List.mem_map]
    exact mem_roomMembers hroom
  · simp [handleSendMessage, hs, hu, hc, hm]

theorem sendMessage_success_witness :
    (Emit.mk "SA" (some "a_b") (Payload.newMessage
        { id := 0, chatId := "a_b", senderId := "a",
          message := "hi", timestamp := 9 })) ∈
      (handleSendMessage demoState "SA" (some " hi ") none 9 true true).2 :=
  (sendMessage_success_and_failure demoState "SA" "a" "a_b" " hi " none 9
    true { participants := ["a", "b"], createdAt := some 0,
           lastMessage := none, lastMessageAt := none }
    (by decide) (by decide) (by decide) (by decide) (by decide)
    (by decide)).2.2.2.1

theorem emitToRoom_payload {rooms : List (String × String)} {c : String}
    {excl : Option String} {p : Payload} {e : Emit}
    (he : e ∈ emitToRoom rooms c excl p) :
    e.payload = p ∧ e.room = some c ∧ (e.target, c) ∈ rooms := by
  simp only [emitToRoom, List.mem_map, List.mem_filter] at he
  obtain ⟨t, ⟨htm, _⟩, rfl⟩ := he
  refine ⟨rfl, rfl, ?_⟩
  simp only [roomMembers, List.mem_map, List.mem_filter] at htm
  obtain ⟨q, ⟨hq, hq2⟩, rfl⟩ := htm
  have hc : q.2 = c := by simpa using hq2
  subst hc
  exact hq

theorem handleJoin_error_shape (st : ServerState) (s : String)
    (u c : Option String) (g : Bool) (e : Emit)
    (he : e ∈ (handleJoin st s u c g).2) (msg : String)
    (hp : e.payload = Payload.error msg) :
    e.target = s ∧ e.room = none ∧ (kindOfError msg).isSome = true := by
  rcases u with _ | u <;> rcases c with _ | c
  · simp [handleJoin] at he
    subst he; simp at hp; subst hp; simp [kindOfError]
  · simp [handleJoin] at he
    subst he; simp at hp; subst hp; simp [kindOfError]
  · simp [handleJoin] at he
    subst he; simp at hp; subst hp; simp [kindOfError]
  · by_cases h1 : u = "" ∨ c = ""
    · simp [handleJoin, h1] at he
      subst he; simp at hp; subst hp; simp [kindOfError]
    · cases g with
      | false =>
        simp [handleJoin, h1] at he
        subst he; simp at hp; subst hp; simp [kindOfError]
      | true =>
        cases hm : mget c st.chats with
        | none =>
          simp [handleJoin, h1, hm] at he
          subst he; simp at hp; subst hp; simp [kindOfError]
        | some chat =>
          by_cases hpart : u ∈ chat.participants
          · simp [handleJoin, h1, hm, hpart, List.mem_append] at he
            rcases he with he2 | he2
            · have := (emitToRoom_payload he2).1
              rw [hp] at this
              cases this
            · subst he2; simp at hp
          · simp [handleJoin, h1, hm, hpart] at he
            subst he; simp at hp; subst hp; simp [kindOfError]

theorem handleSendMessage_error_shape (st : ServerState) (s : String)
    (m : Option String) (ts : Option Nat) (now : Nat) (aok uok : Bool)
    (e : Emit) (he : e ∈ (handleSendMessage st s m ts now aok uok).2)
    (msg : String) (hp : e.payload = Payload.error msg) :
    e.target = s ∧ e.room = none ∧ (kindOfError msg).isSome = true := by
  cases hsess : mget s st.userSockets with
  | none =>
    simp [handleSendMessage, hsess] at he
    subst he; simp at hp; subst hp; simp [kindOfError]
  | some sess =>
    by_cases h1 : sess.userId = "" ∨ sess.chatId = ""
    · simp [handleSendMessage, hsess, h1] at he
      subst he; simp at hp; subst hp; simp [kindOfError]
    · rcases m with _ | m
      · simp [handleSendMessage, hsess, h1] at he
        subst he; simp at hp; subst hp; simp [kindOfError]
      · by_cases hm : jsTrim m = ""
        · simp [handleSendMessage, hsess, h1, hm] at he
          subst he; simp at hp; subst hp; simp [kindOfError]
        · cases aok with
          | false =>
            simp [handleSendMessage, hsess, h1, hm] at he
            subst he; simp at hp; subst hp; simp [kindOfError]
          | true =>
            cases uok with
            | false =>
              simp [handleSendMessage, hsess, h1, hm] at he
              subst he; simp at hp; subst hp; simp [kindOfError]
            | true =>
              cases hch : mget sess.chatId st.chats with
              | none =>
                simp [handleSendMessage, hsess, h1, hm, hch] at he
                subst he; simp at hp; subst hp; simp [kindOfError]
              | some ch =>
                simp [handleSendMessage, hsess, h1, hm, hch,
                  List.mem_map] at he
                obtain ⟨t, _, rfl⟩ := he
                simp at hp

theorem handleTyping_no_error (st : ServerState) (s : String)
    (d : Option Bool) (e : Emit) (he : e ∈ (handleTyping st s d).2)
    (msg : String) (hp : e.payload = Payload.error msg) : False := by
  cases hsess : mget s st.userSockets with
  | none => simp [handleTyping, hsess] at he
  | some sess =>
    by_cases h1 : sess.userId = "" ∨ sess.chatId = ""
    · simp [handleTyping, hsess, h1] at he
    · cases d with
      | none => simp [handleTyping, hsess, h1] at he
      | some b =>
        simp only [handleTyping, hsess, if_neg h1] at he
        have := (emitToRoom_payload he).1
        rw [hp] at this
        cases this

theorem handleDisconnect_no_error (st : ServerState) (s : String)
    (e : Emit) (he : e ∈ (handleDisconnect st s).2) (msg : String)
    (hp : e.payload = Payload.error msg) : False := by
  cases hsess : mget s st.userSockets with
  | none => simp [handleDisconnect, hsess] at he
  | some sess =>
    simp only [handleDisconnect, hsess] at he
    have := (emitToRoom_payload he).1
    rw [hp] at this
    cases this

theorem kindOfError_ne_empty {msg : String}
    (h : (kindOfError msg).isSome = true) : msg ≠ "" := by
  rintro rfl
  revert h
  decide

theorem handleJoin_crashed (st : ServerState) (s : String)
    (u c : Option String) (g : Bool) :
    (handleJoin st s u c g).1.crashed = st.crashed := by
  unfold handleJoin
  rcases u with _ | u
  · rfl
  · rcases c with _ | c
    · rfl
    · dsimp only
      split
      · rfl
      · split
        · rfl
        · split
          · rfl
          · split <;> rfl

theorem handleSendMessage_crashed (st : ServerState) (s : String)
    (m : Option String) (ts : Option Nat) (now : Nat) (aok uok : Bool) :
    (handleSendMessage st s m ts now aok uok).1.crashed = st.crashed := by
  unfold handleSendMessage
  split
  · rfl
  · split
    · rfl
    · split
      · rfl
      · split
        · rfl
        · split
          · rfl
          · split
            · rfl
            · dsimp only
              split <;> rfl

theorem handleDisconnect_crashed (st : ServerState) (s : String) :
    (handleDisconnect st s).1.crashed = st.crashed := by
  unfold handleDisconnect
  dsimp only
  split <;> rfl

/-- Claim C9 (amended): every `error` emission any event produces is a
direct emission to the event's originating socket (never broadcast to a
room), and its message is a non-empty string classified by the spec's
error taxonomy; the try/catch-guarded `join` and `sendMessage` handlers
— and the branch-only `disconnect` handler — never throw (the crashed
flag is untouched).  The `typing` handler alone can throw uncaught: see
the counterexample. -/
theorem errors_only_to_origin (st : ServerState) (ev : Ev) :
    (∀ e ∈ (step st ev).2, ∀ msg, e.payload = Payload.error msg →
      evSocket ev = some e.target ∧ e.room = none ∧
      (kindOfError msg).isSome = true ∧ msg ≠ "") ∧
    (∀ s u c g, ev = Ev.join s u c g →
      (step st ev).1.crashed = st.crashed) ∧
    (∀ s m ts now aok uok, ev = Ev.send s m ts now aok uok →
      (step st ev).1.crashed = st.crashed) ∧
    (∀ s, ev = Ev.disconnect s →
      (step st ev).1.crashed = st.crashed) := by
  refine ⟨?_, ?_, ?_, ?_⟩
  · intro e he msg hp
    cases ev with
    | join s u c g =>
      obtain ⟨h1, h2, h3⟩ := handleJoin_error_shape st s u c g e he msg hp
      exact ⟨by rw [evSocket, h1], h2, h3, kindOfError_ne_empty h3⟩
    | send s m ts now aok uok =>
      obtain ⟨h1, h2, h3⟩ :=
        handleSendMessage_error_shape st s m ts now aok uok e he msg hp
      exact ⟨by rw [evSocket, h1], h2, h3, kindOfError_ne_empty h3⟩
    | typing s d =>
      exact (handleTyping_no_error st s d e he msg hp).elim
    | disconnect s =>
      exact (handleDisconnect_no_error st s e he msg hp).elim
    | createChat ps now =>
      simp [step] at he
  · rintro s u c g rfl
    exact handleJoin_crashed st s u c g
  · rintro s m ts now aok uok rfl
    exact handleSendMessage_crashed st s m ts now aok uok
  · rintro s rfl
    exact handleDisconnect_crashed st s

theorem errors_only_to_origin_witness :
    (evSocket (Ev.join "SC" (some "c") (some "a_b") true) = some "SC" ∧
      (Emit.mk "SC" none
          (Payload.error "Not authorized for this chat")).room = none ∧
      (kindOfError "Not authorized for this chat").isSome = true ∧
      "Not authorized for this chat" ≠ "") ∧
    (step demoState (Ev.join "SC" (some "c") (some "a_b") true)).1.crashed
      = demoState.crashed :=
  ⟨(errors_only_to_origin demoState
      (Ev.join "SC" (some "c") (some "a_b") true)).1
      (Emit.mk "SC" none (Payload.error "Not authorized for this chat"))
      (by decide) "Not authorized for this chat" rfl,
    (errors_only_to_origin demoState
      (Ev.join "SC" (some "c") (some "a_b") true)).2.1
      "SC" (some "c") (some "a_b") true rfl⟩

/-- Claim C9 (counterexample): a joined socket sending `typing` with a
nullish payload — `data.isTyping` throws an uncaught TypeError in the
one handler without try/catch, crashing the process before anything is
emitted: no error event is delivered, and a subsequent event is no
longer handled at all. -/
theorem typing_crash :
    demoState.crashed = false ∧
    (step demoState (Ev.typing "SA" none)).1.crashed = true ∧
    (step demoState (Ev.typing "SA" none)).2 = [] ∧
    run (step demoState (Ev.typing "SA" none)).1 [Ev.disconnect "SA"]
      = ((step demoState (Ev.typing "SA" none)).1, []) :=
  ⟨by decide, by decide, by decide, by decide⟩

theorem registryConsistent_of_eq {st st' : ServerState}
    (ha : st'.activeUsers = st.activeUsers)
    (hu : st'.userSockets = st.userSockets)
    (h : registryConsistent st) : registryConsistent st' := by
  intro u s
  rw [ha, hu]
  exact h u s

theorem registryConsistent_register {st : ServerState} {u s c : String}
    (hInv : registryConsistent st)
    (hu : mget u st.activeUsers = none)
    (hs : mget s st.userSockets = none) :
    ∀ u' s', mget u' (mset u s st.activeUsers) = some s' ↔
      ∃ sess, mget s' (mset s ({ userId := u, chatId := c })
          st.userSockets) = some sess ∧ sess.userId = u' := by
  intro u' s'
  by_cases hu' : u' = u
  · subst hu'
    constructor
    · intro h
      rw [mget_mset_self] at h
      cases h
      exact ⟨{ userId := u', chatId := c }, mget_mset_self _ _ _, rfl⟩
    · rintro ⟨sess, hg, hid⟩
      by_cases hsx : s' = s
      · subst hsx
        exact mget_mset_self u' s' st.activeUsers
      · rw [mget_mset_ne _ _ hsx] at hg
        exact absurd ((hInv u' s').mpr ⟨sess, hg, hid⟩)
          (by rw [hu]; exact fun h => Option.noConfusion h)
  · rw [mget_mset_ne _ _ hu']
    constructor
    · intro h
      obtain ⟨sess, hg, hid⟩ := (hInv u' s').mp h
      by_cases hsx : s' = s
      · subst hsx
        rw [hs] at hg
        exact Option.noConfusion hg
      · rw [mget_mset_ne _ _ hsx]
        exact ⟨sess, hg, hid⟩
    · rintro ⟨sess, hg, hid⟩
      by_cases hsx : s' = s
      · subst hsx
        rw [mget_mset_self] at hg
        obtain rfl : sess = { userId := u, chatId := c } :=
          Option.some_inj.mp hg.symm
        exact absurd hid.symm hu'
      · rw [mget_mset_ne _ _ hsx] at hg
        exact (hInv u' s').mpr ⟨sess, hg, hid⟩

theorem registryConsistent_unregister {st : ServerState} {s : String}
    {sess : Session} (hInv : registryConsistent st)
    (hs : mget s st.userSockets = some sess) :
    ∀ u' s', mget u' (mdel sess.userId st.activeUsers) = some s' ↔
      ∃ sess', mget s' (mdel s st.userSockets) = some sess' ∧
        sess'.userId = u' := by
  have hact : mget sess.userId st.activeUsers = some s :=
    (hInv sess.userId s).mpr ⟨sess, hs, rfl⟩
  intro u' s'
  by_cases hu' : u' = sess.userId
  · subst hu'
    rw [mget_mdel_self]
    constructor
    · intro h
      exact Option.noConfusion h
    · rintro ⟨sess', hg, hid⟩
      by_cases hsx : s' = s
      · subst hsx
        rw [mget_mdel_self] at hg
        exact Option.noConfusion hg
      · rw [mget_mdel_ne _ hsx] at hg
        have := (hInv sess.userId s').mpr ⟨sess', hg, hid⟩
        rw [hact] at this
        exact (hsx (Option.some_inj.mp this.symm)).elim
  · rw [mget_mdel_ne _ hu']
    constructor
    · intro h
      obtain ⟨sess', hg, hid⟩ := (hInv u' s').mp h
      by_cases hsx : s' = s
      · subst hsx
        rw [hs] at hg
        obtain rfl := Option.some_inj.mp hg
        exact absurd hid.symm hu'
      · rw [mget_mdel_ne _ hsx]
        exact ⟨sess', hg, hid⟩
    · rintro ⟨sess', hg, hid⟩
      by_cases hsx : s' = s
      · subst hsx
        rw [mget_mdel_self] at hg
        exact Option.noConfusion hg
      · rw [mget_mdel_ne _ hsx] at hg
        exact (hInv u' s').mpr ⟨sess', hg, hid⟩

theorem handleSendMessage_registry (st : ServerState) (s : String)
    (m : Option String) (ts : Option Nat) (now : Nat) (aok uok : Bool) :
    (handleSendMessage st s m ts now aok uok).1.activeUsers =
      st.activeUsers ∧
    (handleSendMessage st s m ts now aok uok).1.userSockets =
      st.userSockets := by
  unfold handleSendMessage
  split
  · exact ⟨rfl, rfl⟩
  · split
    · exact ⟨rfl, rfl⟩
    · split
      · exact ⟨rfl, rfl⟩
      · split
        · exact ⟨rfl, rfl⟩
        · split
          · exact ⟨rfl, rfl⟩
          · split
            · exact ⟨rfl, rfl⟩
            · dsimp only
              split <;> exact ⟨rfl, rfl⟩

theorem handleTyping_fields (st : ServerState) (s : String)
    (d : Option Bool) :
    (handleTyping st s d).1.activeUsers = st.activeUsers ∧
    (handleTyping st s d).1.userSockets = st.userSockets ∧
    (handleTyping st s d).1.rooms = st.rooms := by
  unfold handleTyping
  split
  · exact ⟨rfl, rfl, rfl⟩
  · split
    · exact ⟨rfl, rfl, rfl⟩
    · split <;> exact ⟨rfl, rfl, rfl⟩

theorem createChatIfAbsent_registry (st : ServerState)
    (ps : Option (List String)) (now : Nat) :
    (createChatIfAbsent st ps now).1.activeUsers = st.activeUsers ∧
    (createChatIfAbsent st ps now).1.userSockets = st.userSockets := by
  unfold createChatIfAbsent
  split
  · exact ⟨rfl, rfl⟩
  · split
    · exact ⟨rfl, rfl⟩
    · dsimp only
      split <;> exact ⟨rfl, rfl⟩

/-- Claim C1 (amended): each registry operation inserts or removes one entry
of each map together, and the lockstep iff invariant is preserved by
every event that is not a re-join.  (A re-join breaks it: see the
counterexample.) -/
theorem registry_lockstep_preserved (st : ServerState) (ev : Ev)
    (hInv : registryConsistent st) (hF : noRejoin ev st) :
    registryConsistent (step st ev).1 := by
  cases ev with
  | createChat ps now =>
    exact registryConsistent_of_eq (createChatIfAbsent_registry st ps now).1
      (createChatIfAbsent_registry st ps now).2 hInv
  | typing s d =>
    exact registryConsistent_of_eq (handleTyping_fields st s d).1
      (handleTyping_fields st s d).2.1 hInv
  | send s m ts now aok uok =>
    exact registryConsistent_of_eq
      (handleSendMessage_registry st s m ts now aok uok).1
      (handleSendMessage_registry st s m ts now aok uok).2 hInv
  | disconnect s =>
    rw [step]
    unfold handleDisconnect
    cases hsess : mget s st.userSockets with
    | none => exact hInv
    | some sess => exact registryConsistent_unregister hInv hsess
  | join s u c g =>
    obtain ⟨hFu, hFs⟩ := hF
    rw [step]
    unfold handleJoin
    rcases u with _ | u
    · exact hInv
    · rcases c with _ | c
      · exact hInv
      · dsimp only
        by_cases h1 : u = "" ∨ c = ""
        · rw [if_pos h1]
          exact hInv
        · rw [if_neg h1]
          cases g with
          | false => exact hInv
          | true =>
            simp only [Bool.not_true, Bool.false_eq_true, if_false]
            cases hm : mget c st.chats with
            | none => exact hInv
            | some chat =>
              dsimp only
              by_cases hpart : u ∈ chat.participants
              · rw [if_pos hpart]
                exact registryConsistent_register hInv (hFu u rfl) hFs
              · rw [if_neg hpart]
                exact hInv

theorem registry_lockstep_preserved_witness :
    registryConsistent
      (step init (Ev.join "S1" (some "a") (some "a_b") true)).1 :=
  registry_lockstep_preserved init (Ev.join "S1" (some "a") (some "a_b") true)
    (fun u s => by
      constructor
      · intro h
        exact Option.noConfusion h
      · rintro ⟨sess, hg, _⟩
        exact Option.noConfusion hg)
    ⟨fun uid _ => rfl, rfl⟩

/-- Claim C1 (counterexample): after the re-join trace the maps disagree —
`userSockets` still holds the stale entry `S1 ↦ {a, a_b}` while
`activeUsers` maps `a` to `S2`, so the reachable state violates the
lockstep invariant. -/
theorem registry_lockstep_fails :
    Reachable (run init rejoinTrace).1 ∧
    ¬ registryConsistent (run init rejoinTrace).1 := by
  constructor
  · exact ⟨rejoinTrace, rfl⟩
  · intro h
    have h2 := (h "a" "S1").mpr
      ⟨{ userId := "a", chatId := "a_b" }, by decide, rfl⟩
    have h3 : mget "a" (run init rejoinTrace).1.activeUsers = some "S2" :=
      by decide
    rw [h3] at h2
    exact absurd (Option.some_inj.mp h2) (by decide)

theorem roomMembers_mem {t c : String} {rooms : List (String × String)}
    (h : t ∈ roomMembers c rooms) : (t, c) ∈ rooms := by
  simp only [roomMembers, List.mem_map, List.mem_filter] at h
  obtain ⟨q, ⟨hq, hq2⟩, rfl⟩ := h
  have hc : q.2 = c := by simpa using hq2
  subst hc
  exact hq

theorem mem_addRoom {t c s c' : String} {rooms : List (String × String)}
    (h : (t, c) ∈ addRoom s c' rooms) :
    (t, c) ∈ rooms ∨ (t = s ∧ c = c') := by
  unfold addRoom at h
  split at h
  · exact Or.inl h
  · rcases List.mem_cons.mp h with h | h
    · right
      exact ⟨congrArg Prod.fst h, congrArg Prod.snd h⟩
    · exact Or.inl h

theorem mem_removeSocket {t c s : String} {rooms : List (String × String)}
    (h : (t, c) ∈ removeSocket s rooms) : (t, c) ∈ rooms :=
  (List.mem_filter.mp h).1

theorem handleSendMessage_rooms (st : ServerState) (s : String)
    (m : Option String) (ts : Option Nat) (now : Nat) (aok uok : Bool) :
    (handleSendMessage st s m ts now aok uok).1.rooms = st.rooms := by
  unfold handleSendMessage
  split
  · rfl
  · split
    · rfl
    · split
      · rfl
      · split
        · rfl
        · split
          · rfl
          · split
            · rfl
            · dsimp only
              split <;> rfl

theorem handleDisconnect_rooms (st : ServerState) (s : String) :
    (handleDisconnect st s).1.rooms = removeSocket s st.rooms := by
  unfold handleDisconnect
  dsimp only
  split <;> rfl

theorem createChatIfAbsent_rooms (st : ServerState)
    (ps : Option (List String)) (now : Nat) :
    (createChatIfAbsent st ps now).1.rooms = st.rooms := by
  unfold createChatIfAbsent
  split
  · rfl
  · split
    · rfl
    · dsimp only
      split <;> rfl

/-- Claim C2 (amended): every room-tagged delivery of any event goes only to
a socket currently in that transport room, and a socket is in a room
only if it was there before or the event is that socket's own `join` of
that chat.  So a connection receives `newMessage`, `userTyping`,
`userOnline` or `userOffline` only for chats it has joined — but
membership is kept in the transport room lists, not recomputed from the
Session Registry, and a re-join does not leave the previous room (see
the counterexample). -/
theorem broadcast_membership (st : ServerState) (ev : Ev) :
    (∀ e ∈ (step st ev).2, ∀ c, e.room = some c →
      (e.target, c) ∈ (step st ev).1.rooms) ∧
    (∀ t c, (t, c) ∈ (step st ev).1.rooms →
      (t, c) ∈ st.rooms ∨ ∃ u g, ev = Ev.join t u (some c) g) := by
  cases ev with
  | createChat ps now =>
    constructor
    · intro e he
      simp [step] at he
    · intro t c h
      rw [step, createChatIfAbsent_rooms] at h
      exact Or.inl h
  | typing s d =>
    constructor
    · intro e he c hc
      rw [step] at he ⊢
      rw [(handleTyping_fields st s d).2.2]
      cases hsess : mget s st.userSockets with
      | none => simp [handleTyping, hsess] at he
      | some sess =>
        by_cases h1 : sess.userId = "" ∨ sess.chatId = ""
        · simp [handleTyping, hsess, h1] at he
        · cases d with
          | none => simp [handleTyping, hsess, h1] at he
          | some b =>
            simp only [handleTyping, hsess, if_neg h1] at he
            obtain ⟨_, hroom, hmem⟩ := emitToRoom_payload he
            rw [hc] at hroom
            obtain rfl := Option.some_inj.mp hroom
            exact hmem
    · intro t c h
      rw [step, (handleTyping_fields st s d).2.2] at h
      exact Or.inl h
  | send s m ts now aok uok =>
    constructor
    · intro e he c hc
      rw [step] at he ⊢
      rw [handleSendMessage_rooms]
      cases hsess : mget s st.userSockets with
      | none =>
        simp [handleSendMessage, hsess] at he
        subst he
        exact absurd hc (by simp)
      | some sess =>
        by_cases h1 : sess.userId = "" ∨ sess.chatId = ""
        · simp [handleSendMessage, hsess, h1] at he
          subst he
          exact absurd hc (by simp)
        · cases m with
          | none =>
            simp [handleSendMessage, hsess, h1] at he
            subst he
            exact absurd hc (by simp)
          | some msg =>
            by_cases hm : jsTrim msg = ""
            · simp [handleSendMessage, hsess, h1, hm] at he
              subst he
              exact absurd hc (by simp)
            · cases aok with
              | false =>
                simp [handleSendMessage, hsess, h1, hm] at he
                subst he
                exact absurd hc (by simp)
              | true =>
                cases uok with
                | false =>
                  simp [handleSendMessage, hsess, h1, hm] at he
                  subst he
                  exact absurd hc (by simp)
                | true =>
                  cases hch : mget sess.chatId st.chats with
                  | none =>
                    simp [handleSendMessage, hsess, h1, hm, hch] at he
                    subst he
                    exact absurd hc (by simp)
                  | some ch =>
                    simp [handleSendMessage, hsess, h1, hm, hch,
                      List.mem_map] at he
                    obtain ⟨t, htm, rfl⟩ := he
                    simp only at hc
                    obtain rfl := Option.some_inj.mp hc
                    exact roomMembers_mem htm
    · intro t c h
      rw [step, handleSendMessage_rooms] at h
      exact Or.inl h
  | disconnect s =>
    constructor
    · intro e he c hc
      rw [step] at he ⊢
      rw [handleDisconnect_rooms]
      cases hsess : mget s st.userSockets with
      | none => simp [handleDisconnect, hsess] at he
      | some sess =>
        simp only [handleDisconnect, hsess] at he
        obtain ⟨_, hroom, hmem⟩ := emitToRoom_payload he
        rw [hc] at hroom
        obtain rfl := Option.some_inj.mp hroom
        exact hmem
    · intro t c h
      rw [step, handleDisconnect_rooms] at h
      exact Or.inl (mem_removeSocket h)
  | join s u c g =>
    constructor
    · intro e he c' hc
      rw [step] at he ⊢
      rcases u with _ | u <;> rcases c with _ | c
      · simp [handleJoin] at he
        subst he
        exact absurd hc (by simp)
      · simp [handleJoin] at he
        subst he
        exact absurd hc (by simp)
      · simp [handleJoin] at he
        subst he
        exact absurd hc (by simp)
      · by_cases h1 : u = "" ∨ c = ""
        · simp [handleJoin, h1] at he
          subst he
          exact absurd hc (by simp)
        · cases g with
          | false =>
            simp [handleJoin, h1] at he
            subst he
            exact absurd hc (by simp)
          | true =>
            cases hm : mget c st.chats with
            | none =>
              simp [handleJoin, h1, hm] at he
              subst he
              exact absurd hc (by simp)
            | some chat =>
              by_cases hpart : u ∈ chat.participants
              · simp [handleJoin, h1, hm, hpart, List.mem_append] at he
                rcases he with he2 | he2
                · obtain ⟨_, hroom, hmem⟩ := emitToRoom_payload he2
                  rw [hc] at hroom
                  obtain rfl := Option.some_inj.mp hroom
                  simpa [handleJoin, h1, hm, hpart] using hmem
                · subst he2
                  exact absurd hc (by simp)
              · simp [handleJoin, h1, hm, hpart] at he
                subst he
                exact absurd hc (by simp)
    · intro t c' h
      rw [step] at h
      rcases u with _ | u <;> rcases c with _ | c
      · simp [handleJoin] at h
        exact Or.inl h
      · simp [handleJoin] at h
        exact Or.inl h
      · simp [handleJoin] at h
        exact Or.inl h
      · by_cases h1 : u = "" ∨ c = ""
        · simp [handleJoin, h1] at h
          exact Or.inl h
        · cases g with
          | false =>
            simp [handleJoin, h1] at h
            exact Or.inl h
          | true =>
            cases hm : mget c st.chats with
            | none =>
              simp [handleJoin, h1, hm] at h
              exact Or.inl h
            | some chat =>
              by_cases hpart : u ∈ chat.participants
              · simp [handleJoin, h1, hm, hpart] at h
                rcases mem_addRoom h with h2 | ⟨rfl, rfl⟩
                · exact Or.inl h2
                · exact Or.inr ⟨some u, true, rfl⟩
              · simp [handleJoin, h1, hm, hpart] at h
                exact Or.inl h

theorem broadcast_membership_witness :
    ("SB", "a_b") ∈
      (step demoState (Ev.send "SA" (some "hi") none 3 true true)).1.rooms :=
  (broadcast_membership demoState
      (Ev.send "SA" (some "hi") none 3 true true)).1
    (Emit.mk "SB" (some "a_b") (Payload.newMessage
      { id := 0, chatId := "a_b", senderId := "a", message := "hi",
        timestamp := 3 }))
    (by decide) "a_b" rfl

/-- Claim C2 (counterexample): in the state reached by `crossRoomTrace`,
socket `X`'s current session is for chat `a_c`, yet when `Y` sends a
message in chat `a_b` the `newMessage` broadcast for room `a_b` is
delivered to `X`: membership came from the transport room `X` never
left, not from the Session Registry. -/
theorem crossRoom_delivery :
    mget "X" (run init crossRoomTrace).1.userSockets =
      some { userId := "a", chatId := "a_c" } ∧
    (Emit.mk "X" (some "a_b") (Payload.newMessage
        { id := 0, chatId := "a_b", senderId := "b", message := "hi",
          timestamp := 5 })) ∈
      (step (run init crossRoomTrace).1
        (Ev.send "Y" (some "hi") none 5 true true)).2 :=
  ⟨by decide, by decide⟩

end ChatServer
